import Mathlib

/-! Verification of the CyberPanel API-key plugin core.

Shallow embedding of `apiKeys-plugin/models.py` (the `APIKey` model) and
`apiKeys-plugin/apiKeyManager.py` (the `APIKeyManager` business logic).

Modelling decisions:
* Python strings are `List Char` (`Str`); `chars` coerces a Lean literal.
* The SHA-256 digest (`hash_key`) is an explicit function parameter
  `h : Str → Str`: the claims do not depend on the concrete hash, only on
  it being a deterministic function, which any Lean function is.
* `secrets.token_urlsafe` is external entropy: the generated token (or a
  generation failure, i.e. a raised exception) is an explicit
  `Except Str Str` parameter threaded into `create_key`.
* The database write performed by `update_last_used` may fail; its outcome
  is the explicit `Except Str Unit` parameter of `validate_key`.  In the
  source only `DoesNotExist` is caught, so a failing save propagates.
* `timezone.now()` is an explicit `now : Nat` parameter.
* The database table is a `Store`: the list of rows plus the auto-increment
  counter.  `objects.get(...)` is `List.find?`; the uniqueness constraint on
  `key_hash` makes a colliding `objects.create` raise `IntegrityError`.
* The JSON bodies produced by `HttpResponse(json.dumps(...))` are `JVal`
  values.
-/

namespace CyberPanel

/-- Python strings modelled as lists of characters. -/
abbrev Str := List Char

/-- Coerce a Lean string literal into the model's string type. -/
def chars (s : String) : Str := s.data

/-- JSON values, as produced by `json.dumps` in the manager's responses. -/
inductive JVal where
  | null : JVal
  | bool (b : Bool) : JVal
  | num (n : Nat) : JVal
  | str (s : Str) : JVal
  | arr (elems : List JVal) : JVal
  | obj (fields : List (Str × JVal)) : JVal

/-- The persisted `APIKey` row (`models.py`): primary key, owner reference,
secret hash, display prefix, label, creation time, nullable last-used time
and the active flag. -/
structure APIKey where
  id : Nat
  admin : Nat
  key_hash : Str
  key_prefix : Str
  name : Str
  created_at : Nat
  last_used : Option Nat
  is_active : Bool
deriving DecidableEq, Repr

/-- The `api_keys` table together with the auto-increment id counter. -/
structure Store where
  keys : List APIKey
  nextId : Nat
deriving DecidableEq, Repr

namespace APIKey

/-- Model of `generate_key`: a `cp_`-prefixed key whose tail is the entropy drawn from
`secrets.token_urlsafe(32)`; the token is a parameter since the random source
is external. -/
def generate_key (token : Str) : Str :=
  chars "cp_" ++ token

/-- Model of `get_prefix`: the first 12 characters of the raw key, or the whole key
when it is shorter than 12 characters. -/
def get_prefix (raw_key : Str) : Str :=
  if raw_key.length ≥ 12 then raw_key.take 12 else raw_key

/-- Model of `update_last_used`: set the `last_used` timestamp on the row. -/
def update_last_used (now : Nat) (k : APIKey) : APIKey :=
  { k with last_used := some now }

/-- Model of `create_key`: draw a key, hash it, insert one row, return the row and the
raw key.  A failing generator (`gen = .error e`) raises before anything is
written; the uniqueness constraint on `key_hash` raises `IntegrityError` on a
hash collision, also writing nothing. -/
def create_key (h : Str → Str) (gen : Except Str Str) (now : Nat)
    (admin : Nat) (name : Str) (s : Store) :
    Except Str (Store × APIKey × Str) :=
  match gen with
  | .error e => .error e
  | .ok token =>
    let raw_key := generate_key token
    let kh := h raw_key
    if s.keys.any (fun k => k.key_hash == kh) then
      .error (chars "UNIQUE constraint failed: api_keys.key_hash")
    else
      let api_key : APIKey :=
        { id := s.nextId, admin := admin, key_hash := kh,
          key_prefix := get_prefix raw_key, name := name,
          created_at := now, last_used := none, is_active := true }
      .ok ({ keys := s.keys ++ [api_key], nextId := s.nextId + 1 },
           api_key, raw_key)

/-- Model of `validate_key`: fast-reject an empty or wrongly-prefixed input, then look
up a row with the matching hash AND `is_active = True`, touch `last_used` and
return the row.  `upd` is the outcome of the save inside `update_last_used`;
the `try` only catches `DoesNotExist`, so a failing save propagates as an
error instead of an answer. -/
def validate_key (h : Str → Str) (now : Nat) (upd : Except Str Unit)
    (raw_key : Str) (s : Store) : Except Str (Option APIKey × Store) :=
  if raw_key.isEmpty || !((chars "cp_").isPrefixOf raw_key) then
    .ok (none, s)
  else
    let key_hash := h raw_key
    match s.keys.find? (fun k => k.key_hash == key_hash && k.is_active) with
    | some api_key =>
      match upd with
      | .error e => .error e
      | .ok _ =>
        let touched := api_key.update_last_used now
        .ok (some touched,
          { s with keys :=
              s.keys.map (fun k => if k.id = api_key.id then touched else k) })
    | none => .ok (none, s)

end APIKey

namespace APIKeyManager

/-- Model of `ajaxPre`: the standard CyberPanel `{status, error_message}` payload. -/
def ajaxPre (status : Nat) (errorMessage : Str) : JVal :=
  .obj [(chars "status", .num status),
        (chars "error_message", .str errorMessage)]

/-- The JSON request payload: both fields used by the manager are optional
(`data.get` returns `None` when absent). -/
structure Data where
  name : Option Str
  keyID : Option Nat
deriving DecidableEq, Repr

/-- The `isoformat()` rendering of a model timestamp. -/
def isoformat (t : Nat) : Str := chars (toString t)

/-- Model of `createKey`: create a key for the current admin and expose the raw key in
this one response; any exception from `create_key` becomes a status-0 message. -/
def createKey (h : Str → Str) (gen : Except Str Str) (now : Nat)
    (admin : Nat) (data : Data) (s : Store) : Store × JVal :=
  let name := data.name.getD (chars "Unnamed Key")
  match APIKey.create_key h gen now admin name s with
  | .ok (s', api_key, raw_key) =>
    (s', .obj [(chars "status", .num 1),
               (chars "key", .str raw_key),
               (chars "id", .num api_key.id),
               (chars "name", .str api_key.name),
               (chars "key_prefix", .str api_key.key_prefix),
               (chars "created_at", .str (isoformat api_key.created_at)),
               (chars "warning",
                .str (chars "Save this key now! It cannot be shown again."))])
  | .error e => (s, ajaxPre 0 e)

/-- One element of the `listKeys` response: id, name, `"{prefix}..."`
preview, timestamps and the active flag — the hash is not rendered. -/
def keyEntry (k : APIKey) : JVal :=
  .obj [(chars "id", .num k.id),
        (chars "name", .str k.name),
        (chars "key_preview", .str ( k.key_prefix ++ chars "...")),
        (chars "created_at", .str (isoformat k.created_at)),
        (chars "last_used",
         match k.last_used with
         | some t => .str (isoformat t)
         | none => .null),
        (chars "is_active", .bool k.is_active)]

/-- Model of `listKeys`: every row of the current admin, most recently created first
(the model's `Meta.ordering = ['-created_at']` applied to the filter). -/
def listKeys (admin : Nat) (s : Store) : Store × JVal :=
  let keys := (s.keys.filter (fun k => k.admin == admin)).mergeSort
    (fun a b => b.created_at ≤ a.created_at)
  (s, .obj [(chars "status", .num 1),
            (chars "keys", .arr (keys.map keyEntry))])

/-- Model of `revokeKey`: toggle `is_active` on the caller's key; a `keyID` that is
absent, unknown, or owned by someone else makes `objects.get` raise
`DoesNotExist`, reported as the generic "API key not found". -/
def revokeKey (admin : Nat) (data : Data) (s : Store) : Store × JVal :=
  let key_id := data.keyID
  match s.keys.find? (fun k => some k.id == key_id && k.admin == admin) with
  | none => (s, ajaxPre 0 (chars "API key not found"))
  | some api_key =>
    let updated := { api_key with is_active := !api_key.is_active }
    ({ s with keys :=
        s.keys.map (fun k => if k.id = api_key.id then updated else k) },
     .obj [(chars "status", .num 1),
           (chars "is_active", .bool updated.is_active)])

/-- Model of `deleteKey`: delete the caller's key; a `keyID` that is absent, unknown,
or owned by someone else is reported as the generic "API key not found". -/
def deleteKey (admin : Nat) (data : Data) (s : Store) : Store × JVal :=
  let key_id := data.keyID
  match s.keys.find? (fun k => some k.id == key_id && k.admin == admin) with
  | none => (s, ajaxPre 0 (chars "API key not found"))
  | some api_key =>
    ({ s with keys := s.keys.filter (fun k => k.id != api_key.id) },
     .obj [(chars "status", .num 1)])

end APIKeyManager

/-! Basic facts used across the development -/

/-- The literal prefix marker, character by character. -/
theorem chars_cp : chars "cp_" = ['c', 'p', '_'] := rfl

/-- Every generated key starts with the `cp_` marker. -/
theorem generate_key_isPrefix (token : Str) :
    (chars "cp_").isPrefixOf (APIKey.generate_key token) = true := by
  simp [APIKey.generate_key, List.isPrefixOf_iff_prefix, chars_cp]

/-- A generated key is never empty. -/
theorem generate_key_ne_empty (token : Str) :
    (APIKey.generate_key token).isEmpty = false := by
  simp [APIKey.generate_key, chars_cp]

/-- `get_prefix` always agrees with truncation to 12 characters. -/
theorem get_prefix_eq_take (raw : Str) :
    APIKey.get_prefix raw = raw.take 12 := by
  unfold APIKey.get_prefix
  split
  · rfl
  · next hlt => rw [List.take_of_length_le (Nat.le_of_not_le hlt)]

/-! Claim theorems -/

/-- C9: `prefixOf` (`get_prefix`) returns the leading 12-character substring
when the raw key has at least 12 characters, and the whole key when it is
shorter; consequently every successfully created key stores exactly the first
12 characters of its raw secret as `key_prefix`. -/
theorem get_prefix_spec :
    (∀ raw : Str,
      (12 ≤ raw.length → APIKey.get_prefix raw = raw.take 12) ∧
      (raw.length < 12 → APIKey.get_prefix raw = raw)) ∧
    (∀ (h : Str → Str) (gen : Except Str Str) (now admin : Nat) (name : Str)
        (s s' : Store) (api_key : APIKey) (raw : Str),
      APIKey.create_key h gen now admin name s = .ok (s', api_key, raw) →
      api_key.key_prefix = raw.take 12) := by
  constructor
  · intro raw
    refine ⟨fun _ => get_prefix_eq_take raw, fun hlt => ?_⟩
    rw [get_prefix_eq_take raw, List.take_of_length_le (Nat.le_of_lt hlt)]
  · intro h gen now admin name s s' api_key raw hc
    cases gen with
    | error e => simp [APIKey.create_key] at hc
    | ok token =>
      by_cases hany :
          (s.keys.any (fun k => k.key_hash == h (APIKey.generate_key token))) = true
      · simp [APIKey.create_key, hany] at hc
      · simp [APIKey.create_key, hany] at hc
        obtain ⟨-, hkey, hraw⟩ := hc
        subst hraw
        rw [← hkey]
        exact get_prefix_eq_take _

/-- C9 witness. -/
theorem get_prefix_spec_witness :
    APIKey.get_prefix (chars "cp_0123456789") = (chars "cp_0123456789").take 12 ∧
    APIKey.get_prefix (chars "cp_abc") = chars "cp_abc" :=
  ⟨(get_prefix_spec.1 (chars "cp_0123456789")).1 (by decide),
   (get_prefix_spec.1 (chars "cp_abc")).2 (by decide)⟩

/-- C3 (code bug): in `validate_key` the `try` block only catches
`DoesNotExist`, so when the matched key's `update_last_used` save fails, the
exception propagates — validation raises instead of still returning the
matched key, contradicting both the spec and the method's own docstring
("Returns the APIKey object if valid and active"). -/
theorem validate_key_update_failure_raises :
    APIKey.validate_key (fun r => r) 5 (.error (chars "database is locked"))
        (chars "cp_token")
        ⟨[⟨1, 1, chars "cp_token", chars "cp_token", chars "ci", 0, none, true⟩], 2⟩
      = .error (chars "database is locked") := rfl

/-- C5: for any acting owner and `keyID`, when no key with that id exists or
the key with that id belongs to a different owner, `revokeKey` (toggle) and
`deleteKey` both leave the store unchanged and both return the one generic
"API key not found" failure — the two causes are indistinguishable from the
response. -/
theorem notFound_indistinguishable (admin kid : Nat) (s : Store)
    (hnone : ∀ k ∈ s.keys, k.id = kid → k.admin ≠ admin) :
    APIKeyManager.revokeKey admin ⟨none, some kid⟩ s
      = (s, APIKeyManager.ajaxPre 0 (chars "API key not found")) ∧
    APIKeyManager.deleteKey admin ⟨none, some kid⟩ s
      = (s, APIKeyManager.ajaxPre 0 (chars "API key not found")) := by
  have hfind :
      s.keys.find? (fun k => some k.id == some kid && k.admin == admin) = none := by
    rw [List.find?_eq_none]
    intro k hk
    simp only [Bool.and_eq_true, beq_iff_eq, Option.some.injEq, not_and]
    exact fun h1 h2 => hnone k hk h1 h2
  constructor
  · simp only [APIKeyManager.revokeKey]
    rw [hfind]
  · simp only [APIKeyManager.deleteKey]
    rw [hfind]

/-- C5 witness: a key with id 5 exists but belongs to owner 2; owner 1's
toggle and delete both get the generic not-found response. -/
theorem notFound_indistinguishable_witness :
    APIKeyManager.revokeKey 1 ⟨none, some 5⟩
        ⟨[⟨5, 2, chars "hh", chars "cp_zzzzzzzzz", chars "k", 0, none, true⟩], 6⟩
      = (⟨[⟨5, 2, chars "hh", chars "cp_zzzzzzzzz", chars "k", 0, none, true⟩], 6⟩,
         APIKeyManager.ajaxPre 0 (chars "API key not found")) ∧
    APIKeyManager.deleteKey 1 ⟨none, some 5⟩
        ⟨[⟨5, 2, chars "hh", chars "cp_zzzzzzzzz", chars "k", 0, none, true⟩], 6⟩
      = (⟨[⟨5, 2, chars "hh", chars "cp_zzzzzzzzz", chars "k", 0, none, true⟩], 6⟩,
         APIKeyManager.ajaxPre 0 (chars "API key not found")) :=
  notFound_indistinguishable 1 5 _ (by decide)

/-- C8 counterexample: a payload missing the required `keyID` field does not
produce a distinct validation-failure message; the response is literally the
generic NotFound response, identical to the one for a nonexistent key id. -/
theorem missing_keyID_counterexample :
    APIKeyManager.revokeKey 7 ⟨none, none⟩
        ⟨[⟨1, 7, chars "hh", chars "cp_abcdefghi", chars "k", 0, none, true⟩], 2⟩
      = APIKeyManager.revokeKey 7 ⟨none, some 999⟩
        ⟨[⟨1, 7, chars "hh", chars "cp_abcdefghi", chars "k", 0, none, true⟩], 2⟩ ∧
    APIKeyManager.revokeKey 7 ⟨none, none⟩
        ⟨[⟨1, 7, chars "hh", chars "cp_abcdefghi", chars "k", 0, none, true⟩], 2⟩
      = (⟨[⟨1, 7, chars "hh", chars "cp_abcdefghi", chars "k", 0, none, true⟩], 2⟩,
         APIKeyManager.ajaxPre 0 (chars "API key not found")) :=
  ⟨rfl, rfl⟩

/-- C8 amended: a payload missing the `keyID` field is treated as referencing
no key at all — `objects.get(id=None, ...)` matches nothing — so `revokeKey`
and `deleteKey` report the generic status-0 "API key not found" result, not a
distinct validation-failure message. -/
theorem missing_keyID_not_found (admin : Nat) (data : APIKeyManager.Data)
    (s : Store) (hmiss : data.keyID = none) :
    APIKeyManager.revokeKey admin data s
      = (s, APIKeyManager.ajaxPre 0 (chars "API key not found")) ∧
    APIKeyManager.deleteKey admin data s
      = (s, APIKeyManager.ajaxPre 0 (chars "API key not found")) := by
  have hfind :
      s.keys.find? (fun k => some k.id == data.keyID && k.admin == admin) = none := by
    rw [List.find?_eq_none]
    intro k hk
    simp [hmiss]
  constructor
  · simp only [APIKeyManager.revokeKey]
    rw [hfind]
  · simp only [APIKeyManager.deleteKey]
    rw [hfind]

/-- C8 amended witness. -/
theorem missing_keyID_not_found_witness :
    APIKeyManager.revokeKey 3 ⟨none, none⟩ ⟨[], 1⟩
      = (⟨[], 1⟩, APIKeyManager.ajaxPre 0 (chars "API key not found")) ∧
    APIKeyManager.deleteKey 3 ⟨none, none⟩ ⟨[], 1⟩
      = (⟨[], 1⟩, APIKeyManager.ajaxPre 0 (chars "API key not found")) :=
  missing_keyID_not_found 3 ⟨none, none⟩ ⟨[], 1⟩ rfl

/-- C4: a generation failure makes `createKey` abort with the store unchanged
and a structured status-0 result carrying the failure message; in general
every `createKey` run either fails with the store unchanged, or appends
exactly one row whose hash is the digest of the raw secret returned in the
success response — no partial record is ever left behind. -/
theorem createKey_all_or_nothing (h : Str → Str) (gen : Except Str Str)
    (now admin : Nat) (data : APIKeyManager.Data) (s : Store) :
    (∀ e, gen = .error e →
      APIKeyManager.createKey h gen now admin data s
        = (s, APIKeyManager.ajaxPre 0 e)) ∧
    ((∃ e, APIKeyManager.createKey h gen now admin data s
        = (s, APIKeyManager.ajaxPre 0 e)) ∨
     (∃ raw api_key,
       (APIKeyManager.createKey h gen now admin data s).1.keys
           = s.keys ++ [api_key] ∧
       api_key.key_hash = h raw ∧ api_key.admin = admin ∧
       (APIKeyManager.createKey h gen now admin data s).2
         = .obj [(chars "status", .num 1),
                 (chars "key", .str raw),
                 (chars "id", .num api_key.id),
                 (chars "name", .str api_key.name),
                 (chars "key_prefix", .str api_key.key_prefix),
                 (chars "created_at", .str (APIKeyManager.isoformat api_key.created_at)),
                 (chars "warning",
                  .str (chars "Save this key now! It cannot be shown again."))])) := by
  cases gen with
  | error e =>
    constructor
    · intro e' he
      injection he with h1
      subst h1
      simp [APIKeyManager.createKey, APIKey.create_key, APIKeyManager.ajaxPre]
    · left
      exact ⟨e, by simp [APIKeyManager.createKey, APIKey.create_key, APIKeyManager.ajaxPre]⟩
  | ok token =>
    refine ⟨(fun e' he => by cases he), ?_⟩
    by_cases hany :
        (s.keys.any (fun k => k.key_hash == h (APIKey.generate_key token))) = true
    · left
      exact ⟨chars "UNIQUE constraint failed: api_keys.key_hash",
        by simp [APIKeyManager.createKey, APIKey.create_key, hany, APIKeyManager.ajaxPre]⟩
    · right
      refine ⟨APIKey.generate_key token,
        ⟨s.nextId, admin, h (APIKey.generate_key token),
         APIKey.get_prefix (APIKey.generate_key token),
         data.name.getD (chars "Unnamed Key"), now, none, true⟩, ?_, rfl, rfl, ?_⟩
      · simp [APIKeyManager.createKey, APIKey.create_key, hany]
      · simp [APIKeyManager.createKey, APIKey.create_key, hany]

/-- C2: `validate_key` returns no match for the empty string, for input not
starting with `cp_`, for a digest matching no stored key, and for a digest
whose stored key (unique, by the database constraint on `key_hash`) is
inactive; and a match is only ever returned for a stored key with
`is_active = true`. -/
theorem validate_key_rejection (h : Str → Str) (now : Nat)
    (upd : Except Str Unit) (raw : Str) (s : Store) :
    (raw = [] → APIKey.validate_key h now upd raw s = .ok (none, s)) ∧
    ((chars "cp_").isPrefixOf raw = false →
      APIKey.validate_key h now upd raw s = .ok (none, s)) ∧
    ((∀ k ∈ s.keys, k.key_hash ≠ h raw) →
      APIKey.validate_key h now upd raw s = .ok (none, s)) ∧
    ((s.keys.map APIKey.key_hash).Nodup →
      ∀ k ∈ s.keys, k.key_hash = h raw → k.is_active = false →
        APIKey.validate_key h now upd raw s = .ok (none, s)) ∧
    (∀ k' s', APIKey.validate_key h now upd raw s = .ok (some k', s') →
      ∃ k ∈ s.keys, k.key_hash = h raw ∧ k.is_active = true ∧
        k' = k.update_last_used now) := by
  refine ⟨?_, ?_, ?_, ?_, ?_⟩
  · intro hraw
    subst hraw
    simp [APIKey.validate_key]
  · intro hpre
    simp [APIKey.validate_key, hpre]
  · intro hno
    have hfind :
        s.keys.find? (fun k => k.key_hash == h raw && k.is_active) = none := by
      rw [List.find?_eq_none]
      intro k hk
      simp only [Bool.and_eq_true, beq_iff_eq, not_and]
      exact fun heq _ => hno k hk heq
    simp only [APIKey.validate_key, hfind]
    split <;> rfl
  · intro hnd k hk hhash hinact
    have hfind :
        s.keys.find? (fun j => j.key_hash == h raw && j.is_active) = none := by
      rw [List.find?_eq_none]
      intro j hj
      simp only [Bool.and_eq_true, beq_iff_eq, not_and]
      intro hjh
      have hjk : j = k :=
        List.inj_on_of_nodup_map hnd hj hk (by rw [hjh, hhash])
      subst hjk
      simp [hinact]
    simp only [APIKey.validate_key, hfind]
    split <;> rfl
  · intro k' s' hv
    simp only [APIKey.validate_key] at hv
    split at hv
    · simp at hv
    · cases hfind : s.keys.find? (fun k => k.key_hash == h raw && k.is_active) with
      | none =>
        rw [hfind] at hv
        simp at hv
      | some k =>
        rw [hfind] at hv
        cases upd with
        | error e => simp at hv
        | ok u =>
          simp only [Except.ok.injEq, Prod.mk.injEq, Option.some.injEq] at hv
          have hpred := List.find?_some hfind
          have hmem := List.mem_of_find?_eq_some hfind
          simp only [Bool.and_eq_true, beq_iff_eq] at hpred
          exact ⟨k, hmem, hpred.1, hpred.2, hv.1.symm⟩

/-- C2 witness: an inactive key's own secret is rejected. -/
theorem validate_key_rejection_witness :
    APIKey.validate_key (fun r => r) 0 (.ok ()) (chars "cp_dead")
        ⟨[⟨1, 1, chars "cp_dead", chars "cp_dead", chars "k", 0, none, false⟩], 2⟩
      = .ok (none,
        ⟨[⟨1, 1, chars "cp_dead", chars "cp_dead", chars "k", 0, none, false⟩], 2⟩) :=
  (validate_key_rejection (fun r => r) 0 (.ok ()) (chars "cp_dead")
      ⟨[⟨1, 1, chars "cp_dead", chars "cp_dead", chars "k", 0, none, false⟩], 2⟩).2.2.2.1
    (by decide)
    ⟨1, 1, chars "cp_dead", chars "cp_dead", chars "k", 0, none, false⟩
    (by decide) rfl rfl

/-- C1: when `create_key(owner, name)` succeeds, immediately passing the
returned raw secret to `validate_key` (with the last-used save succeeding)
returns a match whose `id` and owner equal those of the record just created. -/
theorem create_validate_roundtrip (h : Str → Str) (gen : Except Str Str)
    (now now2 admin : Nat) (name : Str) (s s' : Store)
    (api_key : APIKey) (raw : Str)
    (hc : APIKey.create_key h gen now admin name s = .ok (s', api_key, raw)) :
    ∃ k' s'', APIKey.validate_key h now2 (.ok ()) raw s' = .ok (some k', s'') ∧
      k'.id = api_key.id ∧ k'.admin = admin := by
  cases gen with
  | error e => simp [APIKey.create_key] at hc
  | ok token =>
    by_cases hany :
        (s.keys.any (fun k => k.key_hash == h (APIKey.generate_key token))) = true
    · simp [APIKey.create_key, hany] at hc
    · simp [APIKey.create_key, hany] at hc
      obtain ⟨hs', hkey, hraw⟩ := hc
      subst hraw
      subst hs'
      subst hkey
      have hne := generate_key_ne_empty token
      have hpre := generate_key_isPrefix token
      have hfind1 :
          s.keys.find?
            (fun k => k.key_hash == h (APIKey.generate_key token) && k.is_active)
            = none := by
        rw [List.find?_eq_none]
        intro k hk
        have hnb : ¬ (k.key_hash == h (APIKey.generate_key token)) = true := by
          intro hbeq
          exact hany (List.any_eq_true.mpr ⟨k, hk, hbeq⟩)
        simp only [Bool.and_eq_true, not_and]
        exact fun hbeq _ => hnb hbeq
      have hval : APIKey.validate_key h now2 (.ok ())
          (APIKey.generate_key token)
          ⟨s.keys ++ [⟨s.nextId, admin, h (APIKey.generate_key token),
            APIKey.get_prefix (APIKey.generate_key token), name, now, none, true⟩],
           s.nextId + 1⟩
          = .ok (some (APIKey.update_last_used now2
              ⟨s.nextId, admin, h (APIKey.generate_key token),
               APIKey.get_prefix (APIKey.generate_key token), name, now, none, true⟩),
            ⟨(s.keys ++ [(⟨s.nextId, admin, h (APIKey.generate_key token),
                APIKey.get_prefix (APIKey.generate_key token), name, now, none,
                true⟩ : APIKey)]).map
              (fun k : APIKey => if k.id = s.nextId then
                APIKey.update_last_used now2
                  ⟨s.nextId, admin, h (APIKey.generate_key token),
                   APIKey.get_prefix (APIKey.generate_key token), name, now, none, true⟩
                else k),
             s.nextId + 1⟩) := by
        simp [APIKey.validate_key, hne, hpre, List.find?_append, hfind1,
          APIKey.update_last_used]
      exact ⟨_, _, hval, rfl, rfl⟩

/-- C1 witness. -/
theorem create_validate_roundtrip_witness :
    ∃ k' s'', APIKey.validate_key (fun r => r) 4 (.ok ()) (chars "cp_tok123456")
        ⟨[⟨1, 9, chars "cp_tok123456", chars "cp_tok123456", chars "ci",
           3, none, true⟩], 2⟩
      = .ok (some k', s'') ∧ k'.id = 1 ∧ k'.admin = 9 :=
  create_validate_roundtrip (fun r => r) (.ok (chars "tok123456")) 3 4 9
    (chars "ci") ⟨[], 1⟩
    ⟨[⟨1, 9, chars "cp_tok123456", chars "cp_tok123456", chars "ci",
       3, none, true⟩], 2⟩
    ⟨1, 9, chars "cp_tok123456", chars "cp_tok123456", chars "ci", 3, none, true⟩
    (chars "cp_tok123456") rfl

/-- C6: `listKeys(owner)` returns status 1 with exactly the caller's records
(a permutation of the owner-filtered table — never another owner's record),
ordered most-recently-created first, each rendered by `keyEntry` as id, name,
`"{prefix}..."` preview, creation time, nullable last-used time and active
flag; the rendering does not depend on `key_hash`, so no returned field is
the secret hash. -/
theorem listKeys_spec (admin : Nat) (s : Store) :
    ∃ ks : List APIKey,
      APIKeyManager.listKeys admin s
        = (s, .obj [(chars "status", .num 1),
                    (chars "keys", .arr (ks.map APIKeyManager.keyEntry))]) ∧
      ks.Perm (s.keys.filter (fun k => k.admin == admin)) ∧
      (∀ k ∈ ks, k.admin = admin) ∧
      ks.Pairwise (fun a b => b.created_at ≤ a.created_at) ∧
      (∀ (k : APIKey) (kh : Str),
        APIKeyManager.keyEntry { k with key_hash := kh }
          = APIKeyManager.keyEntry k) := by
  refine ⟨(s.keys.filter (fun k : APIKey => k.admin == admin)).mergeSort
      (fun a b => b.created_at ≤ a.created_at),
    rfl, List.mergeSort_perm _ _, ?_, ?_, ?_⟩
  · intro k hk
    have hk' := List.mem_mergeSort.mp hk
    have hk'' := List.mem_filter.mp hk'
    simpa using hk''.2
  · have hs := @List.sorted_mergeSort APIKey
      (fun a b => b.created_at ≤ a.created_at)
      (fun a b c h1 h2 => by
        simp only [decide_eq_true_eq] at h1 h2 ⊢
        omega)
      (fun a b => by simpa using Nat.le_total b.created_at a.created_at)
      (s.keys.filter (fun k => k.admin == admin))
    exact hs.imp (by simp)
  · intro k kh
    rfl

/-- Splitting a list whose mapped ids are `Nodup` around one element:
no element of either side shares its id. -/
theorem nodup_id_split {l₁ l₂ : List APIKey} {k : APIKey}
    (h : ((l₁ ++ k :: l₂).map APIKey.id).Nodup) :
    (∀ x ∈ l₁, x.id ≠ k.id) ∧ (∀ x ∈ l₂, x.id ≠ k.id) := by
  simp only [List.map_append, List.map_cons, List.nodup_append,
    List.nodup_cons] at h
  obtain ⟨-, ⟨hk2, -⟩, hdisj⟩ := h
  refine ⟨?_, ?_⟩
  · intro x hx heq
    exact hdisj (List.mem_map_of_mem _ hx) (by simp [heq])
  · intro x hx heq
    exact hk2 (heq ▸ List.mem_map_of_mem APIKey.id hx)

/-- One `revokeKey` call on a store split around the caller's key: it flips
exactly that key and reports the resulting state. -/
theorem revokeKey_step (admin : Nat) (l₁ l₂ : List APIKey) (k : APIKey)
    (nid : Nat) (hadm : k.admin = admin)
    (hl₁ : ∀ x ∈ l₁, x.id ≠ k.id) (hl₂ : ∀ x ∈ l₂, x.id ≠ k.id) :
    APIKeyManager.revokeKey admin ⟨none, some k.id⟩ ⟨l₁ ++ k :: l₂, nid⟩
      = (⟨l₁ ++ { k with is_active := !k.is_active } :: l₂, nid⟩,
         .obj [(chars "status", .num 1),
               (chars "is_active", .bool (!k.is_active))]) := by
  have h1 : l₁.find? (fun j => some j.id == some k.id && j.admin == admin)
      = none :=
    List.find?_eq_none.mpr (fun x hx => by simp [hl₁ x hx])
  have hfind : (l₁ ++ k :: l₂).find?
      (fun j => some j.id == some k.id && j.admin == admin) = some k := by
    rw [List.find?_append, h1, Option.none_or]
    exact List.find?_cons_of_pos _ (by simp [hadm])
  have hmap : (l₁ ++ k :: l₂).map
      (fun j => if j.id = k.id then { k with is_active := !k.is_active } else j)
      = l₁ ++ { k with is_active := !k.is_active } :: l₂ := by
    rw [List.map_append, List.map_cons, if_pos rfl]
    have e₁ : l₁.map
        (fun j => if j.id = k.id then { k with is_active := !k.is_active } else j)
        = l₁ :=
      (List.map_congr_left (fun a ha => by simp [hl₁ a ha])).trans (List.map_id l₁)
    have e₂ : l₂.map
        (fun j => if j.id = k.id then { k with is_active := !k.is_active } else j)
        = l₂ :=
      (List.map_congr_left (fun a ha => by simp [hl₂ a ha])).trans (List.map_id l₂)
    rw [e₁, e₂]
  simp only [APIKeyManager.revokeKey]
  rw [hfind]
  simp [hmap]

/-- C7: for a key owned by the caller, `revokeKey` (toggle) is its own
inverse: each call returns the negation of the `is_active` state immediately
before it, and two successive calls restore the original store exactly. -/
theorem revokeKey_involutive (admin kid : Nat) (s : Store) (k : APIKey)
    (hmem : k ∈ s.keys) (hid : k.id = kid) (hadm : k.admin = admin)
    (hnodup : (s.keys.map APIKey.id).Nodup) :
    ∃ s₁ : Store,
      APIKeyManager.revokeKey admin ⟨none, some kid⟩ s
        = (s₁, .obj [(chars "status", .num 1),
                     (chars "is_active", .bool (!k.is_active))]) ∧
      APIKeyManager.revokeKey admin ⟨none, some kid⟩ s₁
        = (s, .obj [(chars "status", .num 1),
                    (chars "is_active", .bool k.is_active)]) := by
  subst hid
  subst hadm
  obtain ⟨ks, nid⟩ := s
  simp only at hmem hnodup
  obtain ⟨l₁, l₂, hsplit⟩ := List.append_of_mem hmem
  subst hsplit
  obtain ⟨hl₁, hl₂⟩ := nodup_id_split hnodup
  refine ⟨⟨l₁ ++ { k with is_active := !k.is_active } :: l₂, nid⟩, ?_, ?_⟩
  · exact revokeKey_step k.admin l₁ l₂ k nid rfl hl₁ hl₂
  · have hstep := revokeKey_step k.admin l₁ l₂
      ({ k with is_active := !k.is_active }) nid rfl hl₁ hl₂
    simpa [Bool.not_not] using hstep

/-- C7 witness. -/
theorem revokeKey_involutive_witness :
    ∃ s₁ : Store,
      APIKeyManager.revokeKey 2 ⟨none, some 1⟩
          ⟨[⟨1, 2, chars "hh", chars "cp_x", chars "n", 0, none, true⟩], 5⟩
        = (s₁, .obj [(chars "status", .num 1),
                     (chars "is_active", .bool false)]) ∧
      APIKeyManager.revokeKey 2 ⟨none, some 1⟩ s₁
        = (⟨[⟨1, 2, chars "hh", chars "cp_x", chars "n", 0, none, true⟩], 5⟩,
           .obj [(chars "status", .num 1),
                 (chars "is_active", .bool true)]) :=
  revokeKey_involutive 2 1
    ⟨[⟨1, 2, chars "hh", chars "cp_x", chars "n", 0, none, true⟩], 5⟩
    ⟨1, 2, chars "hh", chars "cp_x", chars "n", 0, none, true⟩
    (by decide) rfl rfl (by decide)

/-- C10: a successful `validate_key` (a match returned, the save succeeding)
changes only the matched record's `last_used` field: the matched record keeps
its id, owner, hash, prefix, name, creation time and active flag; the id
counter and the number of rows are unchanged; and every other row is
untouched. -/
theorem validate_key_frame (h : Str → Str) (now : Nat) (raw : Str) (s : Store)
    (k' : APIKey) (s' : Store)
    (hnodup : (s.keys.map APIKey.id).Nodup)
    (hv : APIKey.validate_key h now (.ok ()) raw s = .ok (some k', s')) :
    s'.nextId = s.nextId ∧ s'.keys.length = s.keys.length ∧
    ∃ k ∈ s.keys,
      k' = { k with last_used := some now } ∧
      k'.id = k.id ∧ k'.admin = k.admin ∧ k'.key_hash = k.key_hash ∧
      k'.key_prefix = k.key_prefix ∧ k'.name = k.name ∧
      k'.created_at = k.created_at ∧ k'.is_active = k.is_active ∧
      ∀ (i : Nat) (hi : i < s.keys.length) (hi' : i < s'.keys.length),
        (s.keys.get ⟨i, hi⟩ ≠ k → s'.keys.get ⟨i, hi'⟩ = s.keys.get ⟨i, hi⟩) ∧
        (s.keys.get ⟨i, hi⟩ = k → s'.keys.get ⟨i, hi'⟩ = k') := by
  simp only [APIKey.validate_key] at hv
  split at hv
  · simp at hv
  · cases hfind : s.keys.find? (fun j => j.key_hash == h raw && j.is_active) with
    | none =>
      rw [hfind] at hv
      simp at hv
    | some k =>
      rw [hfind] at hv
      simp only [Except.ok.injEq, Prod.mk.injEq, Option.some.injEq] at hv
      obtain ⟨hk', hs'⟩ := hv
      subst hk'
      subst hs'
      have hmem := List.mem_of_find?_eq_some hfind
      refine ⟨rfl, by simp, k, hmem, rfl, rfl, rfl, rfl, rfl, rfl, rfl, rfl, ?_⟩
      intro i hi hi'
      simp only [List.get_eq_getElem, List.getElem_map]
      constructor
      · intro hne
        have hneid : (s.keys[i]).id ≠ k.id := by
          intro hideq
          exact hne (List.inj_on_of_nodup_map hnodup
            (List.getElem_mem hi) hmem hideq)
        rw [if_neg hneid]
      · intro heq
        rw [heq, if_pos rfl]

/-- C10 witness: validating the store's one active key with a succeeding save
keeps the id counter and the row count unchanged. -/
theorem validate_key_frame_witness :
    ((⟨[⟨1, 2, chars "cp_k", chars "cp_k", chars "n", 0, some 7, true⟩], 3⟩
        : Store).nextId
      = (⟨[⟨1, 2, chars "cp_k", chars "cp_k", chars "n", 0, none, true⟩], 3⟩
        : Store).nextId) ∧
    ((⟨[⟨1, 2, chars "cp_k", chars "cp_k", chars "n", 0, some 7, true⟩], 3⟩
        : Store).keys.length
      = (⟨[⟨1, 2, chars "cp_k", chars "cp_k", chars "n", 0, none, true⟩], 3⟩
        : Store).keys.length) :=
  have hframe := validate_key_frame (fun r => r) 7 (chars "cp_k")
    ⟨[⟨1, 2, chars "cp_k", chars "cp_k", chars "n", 0, none, true⟩], 3⟩
    ⟨1, 2, chars "cp_k", chars "cp_k", chars "n", 0, some 7, true⟩
    ⟨[⟨1, 2, chars "cp_k", chars "cp_k", chars "n", 0, some 7, true⟩], 3⟩
    (by decide) rfl
  ⟨hframe.1, hframe.2.1⟩

/-- C4 witness: a failed entropy source aborts the create with nothing
persisted and the failure message reported. -/
theorem createKey_all_or_nothing_witness :
    APIKeyManager.createKey (fun r => r) (.error (chars "entropy unavailable"))
        0 1 ⟨none, none⟩ ⟨[], 1⟩
      = (⟨[], 1⟩, APIKeyManager.ajaxPre 0 (chars "entropy unavailable")) :=
  (createKey_all_or_nothing (fun r => r) (.error (chars "entropy unavailable"))
    0 1 ⟨none, none⟩ ⟨[], 1⟩).1 (chars "entropy unavailable") rfl

end CyberPanel
